import Mathlib

/-!
Verification development for two mlpack ANN layers:
`MeanPoolingType` (`src/mlpack/methods/ann/layer/mean_pooling_impl.hpp`) and
`RecurrentAttention` (`src/mlpack/methods/ann/layer/recurrent_attention_impl.hpp`).

Dense matrices (`arma::mat`) are embedded as a flat, column-major list of
rationals together with the two dimensions; cubes (`arma::Cube`) appear only
as reinterpreting views over the same flat memory, so a cube slice is a
contiguous chunk of the flat list.  All machine floating-point arithmetic is
embedded as exact rational arithmetic.
-/

/-- Embedding of `arma::mat`: column-major flat data plus dimensions. -/
structure Mat where
  nRows : Nat
  nCols : Nat
  data : List ℚ
deriving DecidableEq

/-- `arma::mat::n_elem`. -/
def Mat.nElem (m : Mat) : Nat := m.nRows * m.nCols

/-- `arma::mat::is_empty()`: true when `n_elem == 0`. -/
def Mat.isEmpty (m : Mat) : Bool := m.nRows * m.nCols == 0

/-- `arma::zeros(r, c)`. -/
def Mat.zeros (r c : Nat) : Mat := ⟨r, c, List.replicate (r * c) 0⟩

/-- Overwrite `v.length` entries of the flat (column-major) storage starting
at flat offset `off`; this is how column and submatrix assignments into a
matrix view are embedded. -/
def Mat.setRange (m : Mat) (off : Nat) (v : List ℚ) : Mat :=
  ⟨m.nRows, m.nCols, m.data.take off ++ v ++ m.data.drop (off + v.length)⟩

/-- `m.col(j)` as a fresh column vector (copy of column `j`). -/
def Mat.col (m : Mat) (j : Nat) : Mat :=
  ⟨m.nRows, 1, (m.data.drop (j * m.nRows)).take m.nRows⟩

/-- Elementwise `operator+=` on conforming matrices. -/
def Mat.add (a b : Mat) : Mat :=
  ⟨a.nRows, a.nCols, List.zipWith (· + ·) a.data b.data⟩

/-- `m.submat(off, 0, off + n - 1, 0)` of a column vector: `n` entries
starting at `off`, as a column. -/
def Mat.submatCol (m : Mat) (off n : Nat) : Mat :=
  ⟨n, 1, (m.data.drop off).take n⟩

/-- Slice `s` of a cube view over flat data, each slice holding
`sliceSize = n_rows * n_cols` entries. -/
def cubeSlice (data : List ℚ) (sliceSize s : Nat) : List ℚ :=
  (data.drop (s * sliceSize)).take sliceSize

/-!
## MeanPooling layer

State of `MeanPoolingType` as in `mean_pooling.hpp` / `mean_pooling_impl.hpp`:
kernel and stride sizes, rounding flag `floor`, and the members recomputed by
each `Forward` call and reused by the matching `Backward`.
-/

structure MeanPoolingType where
  kernelWidth : Nat
  kernelHeight : Nat
  strideWidth : Nat
  strideHeight : Nat
  floor : Bool
  inSize : Nat
  outSize : Nat
  inputWidth : Nat
  inputHeight : Nat
  outputWidth : Nat
  outputHeight : Nat
  reset : Bool
  deterministic : Bool
  offset : Nat
  batchSize : Nat
  inputTemp : List ℚ
  outputTemp : List ℚ
  gTemp : List ℚ
deriving DecidableEq

/-- The constructor `MeanPoolingType(kernelWidth, kernelHeight, strideWidth,
strideHeight, floor)`: all derived members zero-initialized. -/
def MeanPoolingType.make (kw kh sw sh : Nat) (floorMode : Bool) : MeanPoolingType :=
  { kernelWidth := kw, kernelHeight := kh, strideWidth := sw, strideHeight := sh,
    floor := floorMode, inSize := 0, outSize := 0, inputWidth := 0, inputHeight := 0,
    outputWidth := 0, outputHeight := 0, reset := false, deterministic := false,
    offset := 0, batchSize := 0, inputTemp := [], outputTemp := [], gTemp := [] }

/-- Modelled from the spec: the in-bounds cells of the pooling window for
output cell `(i, j)` — `Pooling` is implemented in `mean_pooling.hpp`, which
is not among the sources.  Per the spec the window sits at
`(i·strideWidth, j·strideHeight)` with nominal size
`kernelWidth × kernelHeight`, and "when a window extends beyond input bounds
... only the in-bounds cells contribute".  Cells are given as offsets
`(p.1, p.2)` inside the window. -/
def windowOffsets (st : MeanPoolingType) (i j : Nat) : List (Nat × Nat) :=
  ((List.range st.kernelWidth).product (List.range st.kernelHeight)).filter
    (fun p => decide (i * st.strideWidth + p.1 < st.inputWidth ∧
                      j * st.strideHeight + p.2 < st.inputHeight))

/-- Modelled from the spec: one output cell of `Pooling` — "the arithmetic
mean of the input cells covered by the window", with "the divisor ... the
count of in-bounds cells".  The slice is column-major with `n_rows =
inputWidth`, so cell `(r, c)` lives at flat index `c * inputWidth + r`. -/
def poolCell (st : MeanPoolingType) (slice : List ℚ) (i j : Nat) : ℚ :=
  ((windowOffsets st i j).map (fun p =>
      slice.getD ((j * st.strideHeight + p.2) * st.inputWidth +
                  (i * st.strideWidth + p.1)) 0)).sum
    / ((windowOffsets st i j).length : ℚ)

/-- Modelled from the spec: `Pooling` applied to one channel×batch slice,
producing the `outputWidth × outputHeight` output slice column-major. -/
def poolSlice (st : MeanPoolingType) (slice : List ℚ) : List ℚ :=
  (List.range (st.outputWidth * st.outputHeight)).map
    (fun idx => poolCell st slice (idx % st.outputWidth) (idx / st.outputWidth))

/-- The output spatial dimension computed by `Forward` (lines 64–81 of
`mean_pooling_impl.hpp`): `std::floor((inDim - (double) k) / (double) s + 1)`
in floor mode and `std::ceil(...)` in ceil mode, converted back to the
unsigned member. -/
def outDimension (floorMode : Bool) (inDim k s : Nat) : Nat :=
  (if floorMode
    then ⌊((inDim : ℚ) - (k : ℚ)) / (s : ℚ) + 1⌋
    else ⌈((inDim : ℚ) - (k : ℚ)) / (s : ℚ) + 1⌉).toNat

/-- The member updates performed by `Forward` before pooling
(`mean_pooling_impl.hpp` lines 58–81 and 92–94): `batchSize = input.n_cols`,
`inSize = input.n_elem / (inputWidth * inputHeight * batchSize)`, the
`inputTemp` cube view over the input's memory, the floor/ceil output sizes,
the `offset` flag, and `outSize = batchSize * inSize` (the slice count of
the cubes). -/
def MeanPoolingType.forwardState (st : MeanPoolingType) (input : Mat) :
    MeanPoolingType :=
  { st with batchSize := input.nCols,
            inSize := input.nElem / (st.inputWidth * st.inputHeight * input.nCols),
            inputTemp := input.data,
            outputWidth := outDimension st.floor st.inputWidth st.kernelWidth st.strideWidth,
            outputHeight := outDimension st.floor st.inputHeight st.kernelHeight st.strideHeight,
            offset := if st.floor then 0 else 1,
            outSize := input.nCols *
              (input.nElem / (st.inputWidth * st.inputHeight * input.nCols)) }

/-- `MeanPoolingType::Forward(input, output)` from
`mean_pooling_impl.hpp` lines 54–95: records the derived members, pools
every one of the `batchSize * inSize` cube slices, and reshapes the pooled
cube to `(n_elem / batchSize, batchSize)`. -/
def MeanPoolingType.Forward (st : MeanPoolingType) (input : Mat) :
    MeanPoolingType × Mat :=
  let st' := st.forwardState input
  -- `outputTemp` is the zero-initialized output cube, filled slice by slice
  -- (the loop bound `inputTemp.n_slices` equals `batchSize * inSize`, the
  -- recorded `outSize`; `inputWidth`/`inputHeight` are unchanged members).
  let outputTemp := ((List.range st'.outSize).map (fun s =>
      poolSlice st' (cubeSlice input.data (st'.inputWidth * st'.inputHeight) s))).flatten
  ({ st' with outputTemp := outputTemp },
   ⟨outputTemp.length / st'.batchSize, st'.batchSize, outputTemp⟩)

/-- Modelled from the spec: one cell of `Unpooling` — `Unpooling` is
implemented in `mean_pooling.hpp`, which is not among the sources.  Per the
spec, "each contributing input cell receives outputGrad(i,j) divided by that
window's contributing-cell count, added across all windows that cover it". -/
def unpoolCell (st : MeanPoolingType) (errSlice : List ℚ) (r c : Nat) : ℚ :=
  ((List.range st.outputWidth).map (fun i =>
    ((List.range st.outputHeight).map (fun j =>
      if i * st.strideWidth ≤ r ∧ r < i * st.strideWidth + st.kernelWidth ∧
         j * st.strideHeight ≤ c ∧ c < j * st.strideHeight + st.kernelHeight then
        errSlice.getD (j * st.outputWidth + i) 0 / ((windowOffsets st i j).length : ℚ)
      else 0)).sum)).sum

/-- Modelled from the spec: `Unpooling` applied to one slice of the mapped
error cube, producing the `inputWidth × inputHeight` gradient slice.  (Mean
unpooling distributes the error; the corresponding input slice's values are
not needed.) -/
def unpoolSlice (st : MeanPoolingType) (errSlice : List ℚ) : List ℚ :=
  (List.range (st.inputWidth * st.inputHeight)).map
    (fun idx => unpoolCell st errSlice (idx % st.inputWidth) (idx / st.inputWidth))

/-- `MeanPoolingType::Backward(input, gy, g)` from `mean_pooling_impl.hpp`
lines 97–116: the `input` argument is unused (its name is commented out in
the source); `gy` is viewed as a cube `(outputWidth, outputHeight, outSize)`,
`gTemp` is a zero cube with `inputTemp`'s dimensions filled slice by slice,
and `g` reshapes `gTemp`'s memory to `(n_elem / batchSize, batchSize)`. -/
def MeanPoolingType.Backward (st : MeanPoolingType) (_input gy : Mat) :
    MeanPoolingType × Mat :=
  let mappedError := gy.data
  let filled := ((List.range st.outSize).map (fun s =>
      unpoolSlice st (cubeSlice mappedError (st.outputWidth * st.outputHeight) s))).flatten
  -- slices of `gTemp` beyond `mappedError.n_slices` keep their zeros
  let gTemp := filled ++ List.replicate (st.inputTemp.length - filled.length) 0
  ({ st with gTemp := gTemp },
   ⟨gTemp.length / st.batchSize, st.batchSize, gTemp⟩)

/-! ### Helper lemmas for evaluating floor/ceil output sizes -/

lemma toNat_floor_eq (q : ℚ) (n : ℕ) (h1 : (n : ℚ) ≤ q) (h2 : q < n + 1) :
    (⌊q⌋).toNat = n := by
  have h : ⌊q⌋ = (n : ℤ) := by
    rw [Int.floor_eq_iff]
    constructor <;> push_cast <;> assumption
  rw [h, Int.toNat_natCast]

lemma toNat_ceil_eq (q : ℚ) (n : ℕ) (h1 : (n : ℚ) - 1 < q) (h2 : q ≤ n) :
    (⌈q⌉).toNat = n := by
  have h : ⌈q⌉ = (n : ℤ) := by
    rw [Int.ceil_eq_iff]
    constructor <;> push_cast <;> assumption
  rw [h, Int.toNat_natCast]

/-! ### Claim C2: output spatial size -/

/-- C2: `MeanPooling::Forward` computes the output spatial size as
`outW = floor((inputWidth - kernelWidth)/strideWidth + 1)` (and analogously
for `outH`) in floor mode, with `ceil` instead of `floor` in ceil mode;
concretely, a 5×5 input with a 2×2 kernel and 2×2 stride yields a 2×2
output in floor mode and a 3×3 output in ceil mode. -/
theorem mean_pooling_output_size :
    (∀ (st : MeanPoolingType) (input : Mat),
      (st.Forward input).1.outputWidth =
        (if st.floor
          then ⌊((st.inputWidth : ℚ) - (st.kernelWidth : ℚ)) / (st.strideWidth : ℚ) + 1⌋
          else ⌈((st.inputWidth : ℚ) - (st.kernelWidth : ℚ)) / (st.strideWidth : ℚ) + 1⌉).toNat ∧
      (st.Forward input).1.outputHeight =
        (if st.floor
          then ⌊((st.inputHeight : ℚ) - (st.kernelHeight : ℚ)) / (st.strideHeight : ℚ) + 1⌋
          else ⌈((st.inputHeight : ℚ) - (st.kernelHeight : ℚ)) / (st.strideHeight : ℚ) + 1⌉).toNat) ∧
    ((({ MeanPoolingType.make 2 2 2 2 true with
          inputWidth := 5, inputHeight := 5 }).Forward (Mat.zeros 25 1)).1.outputWidth = 2 ∧
     (({ MeanPoolingType.make 2 2 2 2 true with
          inputWidth := 5, inputHeight := 5 }).Forward (Mat.zeros 25 1)).1.outputHeight = 2) ∧
    ((({ MeanPoolingType.make 2 2 2 2 false with
          inputWidth := 5, inputHeight := 5 }).Forward (Mat.zeros 25 1)).1.outputWidth = 3 ∧
     (({ MeanPoolingType.make 2 2 2 2 false with
          inputWidth := 5, inputHeight := 5 }).Forward (Mat.zeros 25 1)).1.outputHeight = 3) := by
  have hgen : ∀ (st : MeanPoolingType) (input : Mat),
      (st.Forward input).1.outputWidth =
        (if st.floor
          then ⌊((st.inputWidth : ℚ) - (st.kernelWidth : ℚ)) / (st.strideWidth : ℚ) + 1⌋
          else ⌈((st.inputWidth : ℚ) - (st.kernelWidth : ℚ)) / (st.strideWidth : ℚ) + 1⌉).toNat ∧
      (st.Forward input).1.outputHeight =
        (if st.floor
          then ⌊((st.inputHeight : ℚ) - (st.kernelHeight : ℚ)) / (st.strideHeight : ℚ) + 1⌋
          else ⌈((st.inputHeight : ℚ) - (st.kernelHeight : ℚ)) / (st.strideHeight : ℚ) + 1⌉).toNat := by
    intro st input
    exact ⟨rfl, rfl⟩
  refine ⟨hgen, ⟨?_, ?_⟩, ⟨?_, ?_⟩⟩
  · rw [(hgen _ _).1]; norm_num [MeanPoolingType.make]; decide
  · rw [(hgen _ _).2]; norm_num [MeanPoolingType.make]; decide
  · rw [(hgen _ _).1]; norm_num [MeanPoolingType.make]
    apply toNat_ceil_eq <;> norm_num
  · rw [(hgen _ _).2]; norm_num [MeanPoolingType.make]
    apply toNat_ceil_eq <;> norm_num

/-! ### Claim C9: Backward ignores its input argument -/

/-- C9: `MeanPooling::Backward`'s result does not depend on its `input`
argument: with the same cached state and the same `gy`, any two inputs give
the same state and the same `inputGrad`, because the parameter is ignored
and only the state cached by `Forward` is read. -/
theorem mean_pooling_backward_input_independent
    (st : MeanPoolingType) (input1 input2 gy : Mat) :
    st.Backward input1 gy = st.Backward input2 gy := rfl

/-! ### Claim C3: Backward is the adjoint of Forward's averaging -/

/-- 4×4 all-ones scenario state: kernel 2×2, stride 2×2, floor mode. -/
def mpScenario44 : MeanPoolingType :=
  { MeanPoolingType.make 2 2 2 2 true with inputWidth := 4, inputHeight := 4 }

/-- 3×3 overlapping-window state: kernel 2×2, stride 1×1, floor mode. -/
def mpScenario33 : MeanPoolingType :=
  { MeanPoolingType.make 2 2 1 1 true with inputWidth := 3, inputHeight := 3 }

lemma outDimension_eval_422 : outDimension true 4 2 2 = 2 := by
  simp only [outDimension, if_true]
  apply toNat_floor_eq <;> norm_num

lemma outDimension_eval_321 : outDimension true 3 2 1 = 2 := by
  simp only [outDimension, if_true]
  apply toNat_floor_eq <;> norm_num

set_option maxHeartbeats 2000000 in
/-- C3: `MeanPooling::Backward` distributes `outputGrad(i,j)` divided by the
window's contributing-cell count to each covered cell, accumulating
additively across overlapping windows.  Concretely: the all-ones 4×4 input,
kernel 2×2 stride 2×2 floor mode gives an all-ones 2×2 `Forward` output, and
`Backward` with all-ones `outputGrad` gives `inputGrad` 0.25 everywhere;
with stride 1×1 on a 3×3 input (overlapping windows) the contributions of
the four windows add up, giving 1 at the centre cell, 1/2 at edge cells and
1/4 at corners. -/
theorem mean_pooling_backward_adjoint_scenario :
    ((mpScenario44.Forward ⟨16, 1, List.replicate 16 1⟩).2
        = ⟨4, 1, [1, 1, 1, 1]⟩) ∧
    (((mpScenario44.Forward ⟨16, 1, List.replicate 16 1⟩).1.Backward
        ⟨16, 1, List.replicate 16 1⟩ ⟨4, 1, [1, 1, 1, 1]⟩).2
        = ⟨16, 1, List.replicate 16 (1/4)⟩) ∧
    (((mpScenario33.Forward ⟨9, 1, List.replicate 9 1⟩).1.Backward
        ⟨9, 1, List.replicate 9 1⟩ ⟨4, 1, [1, 1, 1, 1]⟩).2
        = ⟨9, 1, [1/4, 1/2, 1/4, 1/2, 1, 1/2, 1/4, 1/2, 1/4]⟩) := by
  refine ⟨?_, ?_, ?_⟩
  · norm_num [mpScenario44, MeanPoolingType.make, outDimension_eval_422,
      MeanPoolingType.Forward, MeanPoolingType.forwardState, Mat.nElem,
      poolSlice, poolCell, windowOffsets, cubeSlice,
      List.range_succ, List.filter, List.product, List.getD, List.replicate]
  · norm_num [mpScenario44, MeanPoolingType.make, outDimension_eval_422,
      MeanPoolingType.Forward, MeanPoolingType.forwardState, MeanPoolingType.Backward, Mat.nElem,
      poolSlice, poolCell, unpoolSlice, unpoolCell, windowOffsets, cubeSlice,
      List.range_succ, List.filter, List.product, List.getD, List.replicate]
  · norm_num [mpScenario33, MeanPoolingType.make, outDimension_eval_321,
      MeanPoolingType.Forward, MeanPoolingType.forwardState, MeanPoolingType.Backward, Mat.nElem,
      poolSlice, poolCell, unpoolSlice, unpoolCell, windowOffsets, cubeSlice,
      List.range_succ, List.filter, List.product, List.getD, List.replicate]

/-! ### Claim C8: kernel = stride = 1 gives the identity -/

lemma getD_map_range (l : List ℚ) :
    (List.range l.length).map (fun i => l.getD i 0) = l := by
  induction l with
  | nil => simp
  | cons a l ih =>
      rw [List.length_cons, List.range_succ_eq_map, List.map_cons, List.map_map]
      have h : (fun i => (a :: l).getD i 0) ∘ Nat.succ = fun i => l.getD i 0 := by
        funext i
        simp
      rw [h, ih]
      simp

lemma cubeSlice_zero (l : List ℚ) (k : Nat) : cubeSlice l k 0 = l.take k := by
  simp [cubeSlice]

lemma cubeSlice_succ (l : List ℚ) (k s : Nat) :
    cubeSlice l k (s + 1) = cubeSlice (l.drop k) k s := by
  simp only [cubeSlice, List.drop_drop]
  congr 2
  ring

lemma flatten_chunks (n : Nat) : ∀ (k : Nat) (l : List ℚ), l.length = n * k →
    ((List.range n).map (fun s => cubeSlice l k s)).flatten = l := by
  induction n with
  | zero =>
      intro k l hl
      rw [Nat.zero_mul] at hl
      rw [List.length_eq_zero.mp hl]
      simp
  | succ n ih =>
      intro k l hl
      rw [List.range_succ_eq_map, List.map_cons, List.map_map, List.flatten_cons,
        cubeSlice_zero]
      have h : (fun s => cubeSlice l k s) ∘ Nat.succ = fun s => cubeSlice (l.drop k) k s := by
        funext s
        exact cubeSlice_succ l k s
      rw [h, ih k (l.drop k) (by rw [List.length_drop, hl, Nat.succ_mul]; omega),
        List.take_append_drop]

lemma sum_range_ite (n r : Nat) (f : Nat → ℚ) :
    ((List.range n).map (fun i => if i = r then f i else 0)).sum =
      if r < n then f r else 0 := by
  induction n with
  | zero => simp
  | succ n ih =>
      rw [List.range_succ, List.map_append, List.sum_append, ih]
      rcases Nat.lt_trichotomy r n with h | h | h
      · have h1 : n ≠ r := by omega
        have h2 : r < n + 1 := by omega
        simp [h, h1, h2]
      · subst h
        simp
      · have h1 : ¬r < n := by omega
        have h2 : n ≠ r := by omega
        have h3 : ¬r < n + 1 := by omega
        simp [h1, h2, h3]

lemma outDimension_unit (b : Bool) (n : Nat) : outDimension b n 1 1 = n := by
  have h : ((n : ℚ) - 1) / 1 + 1 = (n : ℚ) := by ring
  cases b <;>
    simp [outDimension, h, Int.floor_natCast, Int.ceil_natCast, Int.toNat_natCast]

lemma prod_range_one_one : (List.range 1).product (List.range 1) = [(0, 0)] := rfl

lemma windowOffsets_unit (st : MeanPoolingType) (i j : Nat)
    (hkw : st.kernelWidth = 1) (hkh : st.kernelHeight = 1)
    (hsw : st.strideWidth = 1) (hsh : st.strideHeight = 1)
    (hi : i < st.inputWidth) (hj : j < st.inputHeight) :
    windowOffsets st i j = [(0, 0)] := by
  simp [windowOffsets, hkw, hkh, hsw, hsh, prod_range_one_one, List.filter, hi, hj]

lemma poolCell_unit (st : MeanPoolingType) (slice : List ℚ) (i j : Nat)
    (hkw : st.kernelWidth = 1) (hkh : st.kernelHeight = 1)
    (hsw : st.strideWidth = 1) (hsh : st.strideHeight = 1)
    (hi : i < st.inputWidth) (hj : j < st.inputHeight) :
    poolCell st slice i j = slice.getD (j * st.inputWidth + i) 0 := by
  rw [poolCell, windowOffsets_unit st i j hkw hkh hsw hsh hi hj]
  simp [hsw, hsh]

lemma poolSlice_unit (st : MeanPoolingType) (slice : List ℚ)
    (hkw : st.kernelWidth = 1) (hkh : st.kernelHeight = 1)
    (hsw : st.strideWidth = 1) (hsh : st.strideHeight = 1)
    (how : st.outputWidth = st.inputWidth) (hoh : st.outputHeight = st.inputHeight)
    (hlen : slice.length = st.inputWidth * st.inputHeight) :
    poolSlice st slice = slice := by
  rw [poolSlice, how, hoh]
  have hmap : ∀ idx ∈ List.range (st.inputWidth * st.inputHeight),
      poolCell st slice (idx % st.inputWidth) (idx / st.inputWidth) =
        slice.getD idx 0 := by
    intro idx hidx
    rw [List.mem_range] at hidx
    have hiw : st.inputWidth ≠ 0 := by
      rintro h
      rw [h] at hidx
      omega
    have hi : idx % st.inputWidth < st.inputWidth := Nat.mod_lt _ (Nat.pos_of_ne_zero hiw)
    have hj : idx / st.inputWidth < st.inputHeight := by
      rw [Nat.div_lt_iff_lt_mul (Nat.pos_of_ne_zero hiw), Nat.mul_comm]
      exact hidx
    rw [poolCell_unit st slice _ _ hkw hkh hsw hsh hi hj]
    congr 1
    rw [Nat.mul_comm]
    exact Nat.div_add_mod idx st.inputWidth
  rw [List.map_congr_left hmap, ← hlen, getD_map_range]

lemma unpoolCell_unit (st : MeanPoolingType) (errSlice : List ℚ) (r c : Nat)
    (hkw : st.kernelWidth = 1) (hkh : st.kernelHeight = 1)
    (hsw : st.strideWidth = 1) (hsh : st.strideHeight = 1)
    (how : st.outputWidth = st.inputWidth) (hoh : st.outputHeight = st.inputHeight)
    (hr : r < st.inputWidth) (hc : c < st.inputHeight) :
    unpoolCell st errSlice r c = errSlice.getD (c * st.inputWidth + r) 0 := by
  rw [unpoolCell]
  have hcond : ∀ i j : Nat,
      (i * st.strideWidth ≤ r ∧ r < i * st.strideWidth + st.kernelWidth ∧
       j * st.strideHeight ≤ c ∧ c < j * st.strideHeight + st.kernelHeight) ↔
        (i = r ∧ j = c) := by
    intro i j
    rw [hkw, hkh, hsw, hsh]
    omega
  have hinner : ∀ i ∈ List.range st.outputWidth,
      ((List.range st.outputHeight).map (fun j =>
        if i * st.strideWidth ≤ r ∧ r < i * st.strideWidth + st.kernelWidth ∧
           j * st.strideHeight ≤ c ∧ c < j * st.strideHeight + st.kernelHeight then
          errSlice.getD (j * st.outputWidth + i) 0 / ((windowOffsets st i j).length : ℚ)
        else 0)).sum =
      if i = r then
        errSlice.getD (c * st.outputWidth + i) 0 / ((windowOffsets st i c).length : ℚ)
      else 0 := by
    intro i _
    have hpt : ∀ j ∈ List.range st.outputHeight,
        (if i * st.strideWidth ≤ r ∧ r < i * st.strideWidth + st.kernelWidth ∧
            j * st.strideHeight ≤ c ∧ c < j * st.strideHeight + st.kernelHeight then
          errSlice.getD (j * st.outputWidth + i) 0 / ((windowOffsets st i j).length : ℚ)
        else 0) =
        (if j = c then
          (if i = r then
            errSlice.getD (j * st.outputWidth + i) 0 / ((windowOffsets st i j).length : ℚ)
          else 0)
        else 0) := by
      intro j _
      rw [if_congr (hcond i j) rfl rfl]
      by_cases h1 : i = r <;> by_cases h2 : j = c <;> simp [h1, h2]
    rw [List.map_congr_left hpt,
      sum_range_ite st.outputHeight c (fun j =>
        if i = r then
          errSlice.getD (j * st.outputWidth + i) 0 / ((windowOffsets st i j).length : ℚ)
        else 0),
      if_pos (hoh ▸ hc)]
  rw [List.map_congr_left hinner,
    sum_range_ite st.outputWidth r (fun i =>
      errSlice.getD (c * st.outputWidth + i) 0 / ((windowOffsets st i c).length : ℚ)),
    if_pos (how ▸ hr), windowOffsets_unit st r c hkw hkh hsw hsh hr hc, how]
  simp

lemma unpoolSlice_unit (st : MeanPoolingType) (errSlice : List ℚ)
    (hkw : st.kernelWidth = 1) (hkh : st.kernelHeight = 1)
    (hsw : st.strideWidth = 1) (hsh : st.strideHeight = 1)
    (how : st.outputWidth = st.inputWidth) (hoh : st.outputHeight = st.inputHeight)
    (hlen : errSlice.length = st.inputWidth * st.inputHeight) :
    unpoolSlice st errSlice = errSlice := by
  rw [unpoolSlice]
  have hmap : ∀ idx ∈ List.range (st.inputWidth * st.inputHeight),
      unpoolCell st errSlice (idx % st.inputWidth) (idx / st.inputWidth) =
        errSlice.getD idx 0 := by
    intro idx hidx
    rw [List.mem_range] at hidx
    have hiw : st.inputWidth ≠ 0 := by
      rintro h
      rw [h] at hidx
      omega
    have hi : idx % st.inputWidth < st.inputWidth := Nat.mod_lt _ (Nat.pos_of_ne_zero hiw)
    have hj : idx / st.inputWidth < st.inputHeight := by
      rw [Nat.div_lt_iff_lt_mul (Nat.pos_of_ne_zero hiw), Nat.mul_comm]
      exact hidx
    rw [unpoolCell_unit st errSlice _ _ hkw hkh hsw hsh how hoh hi hj]
    congr 1
    rw [Nat.mul_comm]
    exact Nat.div_add_mod idx st.inputWidth
  rw [List.map_congr_left hmap, ← hlen, getD_map_range]

lemma cubeSlice_length (l : List ℚ) (k n s : Nat) (hs : s < n) (hl : l.length = n * k) :
    (cubeSlice l k s).length = k := by
  simp only [cubeSlice, List.length_take, List.length_drop]
  have h : s * k + k ≤ n * k := by
    have h1 : s + 1 ≤ n := hs
    calc s * k + k = (s + 1) * k := by ring
    _ ≤ n * k := Nat.mul_le_mul_right k h1
  omega

lemma pool_chunks_id (stV : MeanPoolingType) (n : Nat) (l : List ℚ)
    (hkw : stV.kernelWidth = 1) (hkh : stV.kernelHeight = 1)
    (hsw : stV.strideWidth = 1) (hsh : stV.strideHeight = 1)
    (how : stV.outputWidth = stV.inputWidth) (hoh : stV.outputHeight = stV.inputHeight)
    (hlen : l.length = n * (stV.inputWidth * stV.inputHeight)) :
    ((List.range n).map (fun s =>
      poolSlice stV (cubeSlice l (stV.inputWidth * stV.inputHeight) s))).flatten = l := by
  have hmap : ∀ s ∈ List.range n,
      poolSlice stV (cubeSlice l (stV.inputWidth * stV.inputHeight) s) =
        cubeSlice l (stV.inputWidth * stV.inputHeight) s := by
    intro s hs
    rw [List.mem_range] at hs
    exact poolSlice_unit stV _ hkw hkh hsw hsh how hoh
      (cubeSlice_length l _ n s hs hlen)
  rw [List.map_congr_left hmap]
  exact flatten_chunks n _ l hlen

lemma unpool_chunks_id (stV : MeanPoolingType) (n : Nat) (l : List ℚ)
    (hkw : stV.kernelWidth = 1) (hkh : stV.kernelHeight = 1)
    (hsw : stV.strideWidth = 1) (hsh : stV.strideHeight = 1)
    (how : stV.outputWidth = stV.inputWidth) (hoh : stV.outputHeight = stV.inputHeight)
    (hlen : l.length = n * (stV.inputWidth * stV.inputHeight)) :
    ((List.range n).map (fun s =>
      unpoolSlice stV (cubeSlice l (stV.inputWidth * stV.inputHeight) s))).flatten = l := by
  have hmap : ∀ s ∈ List.range n,
      unpoolSlice stV (cubeSlice l (stV.inputWidth * stV.inputHeight) s) =
        cubeSlice l (stV.inputWidth * stV.inputHeight) s := by
    intro s hs
    rw [List.mem_range] at hs
    exact unpoolSlice_unit stV _ hkw hkh hsw hsh how hoh
      (cubeSlice_length l _ n s hs hlen)
  rw [List.map_congr_left hmap]
  exact flatten_chunks n _ l hlen

lemma Forward_unit (st : MeanPoolingType) (input : Mat) (m : Nat)
    (hkw : st.kernelWidth = 1) (hkh : st.kernelHeight = 1)
    (hsw : st.strideWidth = 1) (hsh : st.strideHeight = 1)
    (hrows : input.nRows = st.inputWidth * st.inputHeight * m)
    (hwf : input.data.length = input.nRows * input.nCols)
    (hcols : input.nCols ≠ 0) :
    (st.Forward input).2 = input := by
  simp only [MeanPoolingType.Forward]
  have hbatch : (st.forwardState input).batchSize = input.nCols := rfl
  by_cases hz : st.inputWidth * st.inputHeight = 0
  · have hsz : (st.forwardState input).outSize = 0 := by
      show input.nCols * (input.nElem / (st.inputWidth * st.inputHeight * input.nCols)) = 0
      rw [hz, Nat.zero_mul, Nat.div_zero, Nat.mul_zero]
    have hd : input.data = [] := by
      apply List.length_eq_zero.mp
      rw [hwf, hrows, hz]
      simp
    have hr0 : input.nRows = 0 := by rw [hrows, hz, Nat.zero_mul]
    rw [hsz]
    simp only [List.range_zero, List.map_nil, List.flatten_nil, List.length_nil,
      Nat.zero_div]
    rw [hbatch, ← hd, ← hr0]
  · have hpos : 0 < st.inputWidth * st.inputHeight * input.nCols :=
      Nat.pos_of_ne_zero (Nat.mul_ne_zero hz hcols)
    have hq : input.nElem / (st.inputWidth * st.inputHeight * input.nCols) = m := by
      show input.nRows * input.nCols / (st.inputWidth * st.inputHeight * input.nCols) = m
      rw [hrows,
        show st.inputWidth * st.inputHeight * m * input.nCols =
          st.inputWidth * st.inputHeight * input.nCols * m by ring]
      exact Nat.mul_div_cancel_left m hpos
    have hsz : (st.forwardState input).outSize = input.nCols * m := by
      show input.nCols * (input.nElem / (st.inputWidth * st.inputHeight * input.nCols)) =
        input.nCols * m
      rw [hq]
    have hkw' : (st.forwardState input).kernelWidth = 1 := hkw
    have hkh' : (st.forwardState input).kernelHeight = 1 := hkh
    have hsw' : (st.forwardState input).strideWidth = 1 := hsw
    have hsh' : (st.forwardState input).strideHeight = 1 := hsh
    have how' : (st.forwardState input).outputWidth = (st.forwardState input).inputWidth := by
      show outDimension st.floor st.inputWidth st.kernelWidth st.strideWidth = st.inputWidth
      rw [hkw, hsw]
      exact outDimension_unit st.floor st.inputWidth
    have hoh' : (st.forwardState input).outputHeight = (st.forwardState input).inputHeight := by
      show outDimension st.floor st.inputHeight st.kernelHeight st.strideHeight = st.inputHeight
      rw [hkh, hsh]
      exact outDimension_unit st.floor st.inputHeight
    have hlen : input.data.length =
        input.nCols * m *
          ((st.forwardState input).inputWidth * (st.forwardState input).inputHeight) := by
      show input.data.length = input.nCols * m * (st.inputWidth * st.inputHeight)
      rw [hwf, hrows]
      ring
    have hX := pool_chunks_id (st.forwardState input) (input.nCols * m) input.data
      hkw' hkh' hsw' hsh' how' hoh' hlen
    rw [hsz, hX, hbatch, hwf, Nat.mul_div_cancel _ (Nat.pos_of_ne_zero hcols)]

lemma Backward_unit (stB : MeanPoolingType) (inp gy : Mat) (n : Nat)
    (hkw : stB.kernelWidth = 1) (hkh : stB.kernelHeight = 1)
    (hsw : stB.strideWidth = 1) (hsh : stB.strideHeight = 1)
    (how : stB.outputWidth = stB.inputWidth) (hoh : stB.outputHeight = stB.inputHeight)
    (hos : stB.outSize = n)
    (hglen : gy.data.length = n * (stB.inputWidth * stB.inputHeight))
    (hitlen : stB.inputTemp.length = gy.data.length)
    (hb : stB.batchSize = gy.nCols) (hcols : gy.nCols ≠ 0)
    (hgr : gy.data.length = gy.nRows * gy.nCols) :
    (stB.Backward inp gy).2 = gy := by
  simp only [MeanPoolingType.Backward]
  rw [hos, how, hoh]
  have hfill := unpool_chunks_id stB n gy.data hkw hkh hsw hsh how hoh hglen
  rw [hfill, hitlen, Nat.sub_self]
  simp only [List.replicate_zero, List.append_nil]
  rw [hb, hgr, Nat.mul_div_cancel _ (Nat.pos_of_ne_zero hcols)]

/-- C8: for every MeanPooling configuration with
`kernelWidth = kernelHeight = strideWidth = strideHeight = 1` and every
(shape-consistent) input, `Forward`'s output equals the input exactly, and
the matching `Backward` returns any conforming `outputGrad` unchanged,
regardless of the `input` argument passed to `Backward`. -/
theorem mean_pooling_unit_kernel_identity (st : MeanPoolingType) (input gy : Mat) (m : Nat)
    (hkw : st.kernelWidth = 1) (hkh : st.kernelHeight = 1)
    (hsw : st.strideWidth = 1) (hsh : st.strideHeight = 1)
    (hrows : input.nRows = st.inputWidth * st.inputHeight * m)
    (hwf : input.data.length = input.nRows * input.nCols)
    (hcols : input.nCols ≠ 0)
    (hgrows : gy.nRows = input.nRows) (hgcols : gy.nCols = input.nCols)
    (hgwf : gy.data.length = gy.nRows * gy.nCols) :
    (st.Forward input).2 = input ∧
    ∀ inp2 : Mat, ((st.Forward input).1.Backward inp2 gy).2 = gy := by
  constructor
  · exact Forward_unit st input m hkw hkh hsw hsh hrows hwf hcols
  · intro inp2
    have hkw' : (st.Forward input).1.kernelWidth = 1 := hkw
    have hkh' : (st.Forward input).1.kernelHeight = 1 := hkh
    have hsw' : (st.Forward input).1.strideWidth = 1 := hsw
    have hsh' : (st.Forward input).1.strideHeight = 1 := hsh
    have how' : (st.Forward input).1.outputWidth = (st.Forward input).1.inputWidth := by
      show outDimension st.floor st.inputWidth st.kernelWidth st.strideWidth = st.inputWidth
      rw [hkw, hsw]
      exact outDimension_unit st.floor st.inputWidth
    have hoh' : (st.Forward input).1.outputHeight = (st.Forward input).1.inputHeight := by
      show outDimension st.floor st.inputHeight st.kernelHeight st.strideHeight = st.inputHeight
      rw [hkh, hsh]
      exact outDimension_unit st.floor st.inputHeight
    have hos : (st.Forward input).1.outSize =
        input.nCols * (input.nElem / (st.inputWidth * st.inputHeight * input.nCols)) := rfl
    have hglen : gy.data.length =
        input.nCols * (input.nElem / (st.inputWidth * st.inputHeight * input.nCols)) *
          ((st.Forward input).1.inputWidth * (st.Forward input).1.inputHeight) := by
      show gy.data.length =
        input.nCols * (input.nElem / (st.inputWidth * st.inputHeight * input.nCols)) *
          (st.inputWidth * st.inputHeight)
      rw [hgwf, hgrows, hgcols, Mat.nElem, hrows]
      by_cases hz : st.inputWidth * st.inputHeight = 0
      · rw [hz]
        simp
      · have hpos : 0 < st.inputWidth * st.inputHeight * input.nCols :=
          Nat.pos_of_ne_zero (Nat.mul_ne_zero hz hcols)
        rw [show st.inputWidth * st.inputHeight * m * input.nCols =
            st.inputWidth * st.inputHeight * input.nCols * m by ring,
          Nat.mul_div_cancel_left m hpos]
        ring
    have hitlen : (st.Forward input).1.inputTemp.length = gy.data.length := by
      show input.data.length = gy.data.length
      rw [hwf, hgwf, hgrows, hgcols]
    have hb : (st.Forward input).1.batchSize = gy.nCols := by
      show input.nCols = gy.nCols
      exact hgcols.symm
    have hcols' : gy.nCols ≠ 0 := by
      rw [hgcols]
      exact hcols
    exact Backward_unit ((st.Forward input).1) inp2 gy
      (input.nCols * (input.nElem / (st.inputWidth * st.inputHeight * input.nCols)))
      hkw' hkh' hsw' hsh' how' hoh' hos hglen hitlen hb hcols' hgwf

/-- Witness for C8 at a concrete 2×2 input with batch 1. -/
theorem mean_pooling_unit_kernel_identity_witness :
    (({ MeanPoolingType.make 1 1 1 1 true with
        inputWidth := 2, inputHeight := 2 }).Forward ⟨4, 1, [1, 2, 3, 4]⟩).2
      = ⟨4, 1, [1, 2, 3, 4]⟩ ∧
    ((({ MeanPoolingType.make 1 1 1 1 true with
        inputWidth := 2, inputHeight := 2 }).Forward ⟨4, 1, [1, 2, 3, 4]⟩).1.Backward
        ⟨4, 1, [9, 9, 9, 9]⟩ ⟨4, 1, [5, 6, 7, 8]⟩).2 = ⟨4, 1, [5, 6, 7, 8]⟩ := by
  have h := mean_pooling_unit_kernel_identity
    ({ MeanPoolingType.make 1 1 1 1 true with inputWidth := 2, inputHeight := 2 })
    ⟨4, 1, [1, 2, 3, 4]⟩ ⟨4, 1, [5, 6, 7, 8]⟩ 1
    rfl rfl rfl rfl (by decide) (by decide) (by decide) (by decide) (by decide) (by decide)
  exact ⟨h.1, h.2 ⟨4, 1, [9, 9, 9, 9]⟩⟩

/-!
## RecurrentAttention layer

State of `RecurrentAttention` as in `recurrent_attention.hpp` /
`recurrent_attention_impl.hpp`.  The two owned sub-modules are embedded as
records of their layer-interface functions (`Forward`, `Backward`,
`Gradient`) plus their parameter matrix; their `OutputParameter()` members
and `Gradient()` buffers are fields of the owning layer's state, mirroring
how the driver code threads them.  The `network` vector is
`[rnnModule, actionModule]`, so index `0` is the recurrent module and
index `1` the action module.
-/

/-- A sub-layer: the uniform layer interface the driver calls through
(the `RNNModuleType` / `ActionModuleType` template parameters). -/
structure LayerModule where
  forward : Mat → Mat
  backward : Mat → Mat → Mat
  gradient : Mat → Mat → Mat
  parameters : Mat

structure RecurrentAttention where
  outSize : Nat
  rho : Nat
  forwardStep : Nat
  backwardStep : Nat
  deterministic : Bool
  rnnModule : LayerModule
  actionModule : LayerModule
  /-- `rnnModule->OutputParameter()`. -/
  rnnOutput : Mat
  /-- `actionModule->OutputParameter()`. -/
  actionOutput : Mat
  initialInput : Mat
  /-- The snapshot stack (`push_back` appends at the end, `pop_back`
  removes the last element). -/
  moduleOutputParameter : List Mat
  intermediateGradient : Mat
  attentionGradient : Mat
  actionError : Mat
  actionDelta : Mat
  rnnDelta : Mat
  recurrentError : Mat
  /-- `rnnModule->Gradient()`. -/
  rnnGradient : Mat
  /-- `actionModule->Gradient()`. -/
  actionGradient : Mat

/-- The glimpse input built in `Forward` (lines 81–85):
`glimpseInput = zeros(input.n_elem, 2)`, `glimpseInput.col(0) = input`,
`glimpseInput.submat(0, 1, actionOut.n_elem - 1, 1) = actionOut` (column 1
starts at flat offset `input.n_elem`). -/
def buildGlimpse (input actionOut : Mat) : Mat :=
  ((Mat.zeros input.nElem 2).setRange 0 input.data).setRange input.nElem actionOut.data

/-- One iteration of the `Forward` unroll loop
(`recurrent_attention_impl.hpp` lines 69–98): feed the action module
(`initialInput` at step 0, the recurrent output later), build the glimpse
input, feed the recurrent module, and, when not deterministic, push the
output parameters of `network[0]` (rnn) then `network[1]` (action) onto the
snapshot stack. -/
def forwardStepFn (input : Mat) (st : RecurrentAttention) : RecurrentAttention :=
  let actionOutput := if st.forwardStep = 0
    then st.actionModule.forward st.initialInput
    else st.actionModule.forward st.rnnOutput
  let glimpseInput := buildGlimpse input actionOutput
  let rnnOutput := st.rnnModule.forward glimpseInput
  let moduleOutputParameter := if st.deterministic
    then st.moduleOutputParameter
    else st.moduleOutputParameter ++ [rnnOutput, actionOutput]
  { st with actionOutput := actionOutput, rnnOutput := rnnOutput,
            moduleOutputParameter := moduleOutputParameter,
            forwardStep := st.forwardStep + 1 }

/-- The `for (forwardStep = 0; forwardStep < rho; ++forwardStep)` loop,
unrolled by its iteration count. -/
def forwardLoop (input : Mat) : Nat → RecurrentAttention → RecurrentAttention
  | 0, st => st
  | n + 1, st => forwardLoop input n (forwardStepFn input st)

/-- `RecurrentAttention::Forward(input, output)` (lines 58–104): allocate
the zero `initialInput` only when it is empty, run the `rho`-step unroll
loop, emit the recurrent module's output parameter, and reset both step
cursors to 0. -/
def RecurrentAttention.Forward (st : RecurrentAttention) (input : Mat) :
    RecurrentAttention × Mat :=
  let st1 := if st.initialInput.isEmpty
    then { st with initialInput := Mat.zeros st.outSize input.nCols }
    else st
  let st2 := forwardLoop input st1.rho { st1 with forwardStep := 0 }
  ({ st2 with forwardStep := 0, backwardStep := 0 }, st2.rnnOutput)

/-- `pop_back` on the snapshot stack: the last element (arma `back()`),
and the stack without it. -/
def popBack (l : List Mat) : Mat × List Mat :=
  (l.getLastD (Mat.zeros 0 0), l.dropLast)

/-- Modelled from the spec: `IntermediateGradient()` is declared in
`recurrent_attention.hpp`, which is not among the sources.  Per the spec it
accumulates "the step's per-module gradient contributions into the running
attention-gradient total", the recurrent module's block first and the
action module's block after it (matching the aliasing offsets that
`Backward` sets up in `intermediateGradient`). -/
def intermediateGradientFn (st : RecurrentAttention) : RecurrentAttention :=
  let rnnContrib := st.rnnModule.gradient st.rnnOutput st.recurrentError
  let actionContrib := st.actionModule.gradient st.actionOutput st.actionError
  let ig : Mat := ⟨rnnContrib.nElem + actionContrib.nElem, 1,
    rnnContrib.data ++ actionContrib.data⟩
  { st with intermediateGradient := ig,
            attentionGradient := st.attentionGradient.add ig }

/-- One iteration of the `Backward` BPTT loop (lines 145–185).  In order:
select the recurrent upstream error (`gy` at `backwardStep == 0`, the
previous iteration's `actionDelta` otherwise); pop the two snapshots in
reverse of push order, restoring `network[1]` (action module) then
`network[0]` (rnn module) output parameters; run the action module's
backward (against its restored output at the last step, `initialInput`
earlier); run the recurrent module's backward with the selected error;
assign (`backwardStep == 0`) or accumulate column 1 of `rnnDelta` into `g`;
call `IntermediateGradient()`; increment `backwardStep`. -/
def backwardStepFn (gy : Mat) (p : RecurrentAttention × Mat) :
    RecurrentAttention × Mat :=
  let st := p.1
  let g := p.2
  let recurrentError := if st.backwardStep = 0 then gy else st.actionDelta
  -- the `for (l < network.size())` restore loop: l = 0 pops into
  -- network[1] (action module), l = 1 pops into network[0] (rnn module)
  let a := (popBack st.moduleOutputParameter).1
  let s1 := (popBack st.moduleOutputParameter).2
  let r := (popBack s1).1
  let s2 := (popBack s1).2
  let st := { st with recurrentError := recurrentError, actionOutput := a,
                      rnnOutput := r, moduleOutputParameter := s2 }
  let actionDelta := if st.backwardStep = st.rho - 1
    then st.actionModule.backward st.actionOutput st.actionError
    else st.actionModule.backward st.initialInput st.actionError
  let rnnDelta := st.rnnModule.backward st.rnnOutput st.recurrentError
  let g := if st.backwardStep = 0 then rnnDelta.col 1 else g.add (rnnDelta.col 1)
  let st := intermediateGradientFn { st with actionDelta := actionDelta,
                                             rnnDelta := rnnDelta }
  ({ st with backwardStep := st.backwardStep + 1 }, g)

/-- The allocation and aliasing done by `Backward` before its loop
(lines 112–142): on first entry allocate `intermediateGradient`,
`attentionGradient` (sized to the two modules' total parameter count) and
`actionError`; at `backwardStep == 0` bind the two modules' `Gradient()`
buffers to the offset slices of `intermediateGradient` (rnn module at
offset 0, action module after it) and zero `attentionGradient`. -/
def backwardInit (st : RecurrentAttention) : RecurrentAttention :=
  let st1 := if st.intermediateGradient.isEmpty ∧ st.backwardStep = 0 then
      let weights := st.rnnModule.parameters.nElem + st.actionModule.parameters.nElem
      { st with intermediateGradient := Mat.zeros weights 1,
                attentionGradient := Mat.zeros weights 1,
                actionError := Mat.zeros st.actionOutput.nRows st.actionOutput.nCols }
    else st
  if st1.backwardStep = 0 then
    { st1 with
        rnnGradient := (st1.intermediateGradient.submatCol 0
          st1.rnnModule.parameters.nElem),
        actionGradient := (st1.intermediateGradient.submatCol
          st1.rnnModule.parameters.nElem st1.actionModule.parameters.nElem),
        attentionGradient := (Mat.zeros st1.attentionGradient.nRows
          st1.attentionGradient.nCols) }
  else st1

/-- `RecurrentAttention::Backward(input, gy, g)` (lines 106–186): the
`input` argument is unused (its name is commented out in the source); after
the initialization, the `for (; backwardStep < rho; backwardStep++)` loop
runs `rho - backwardStep` iterations (each iteration increments the
cursor by one).  `g0` is the incoming value of the by-reference output
argument `g`. -/
def RecurrentAttention.Backward (st : RecurrentAttention) (_input gy g0 : Mat) :
    RecurrentAttention × Mat :=
  let st1 := backwardInit st
  (backwardStepFn gy)^[st1.rho - st1.backwardStep] (st1, g0)

/-- `RecurrentAttention::Gradient(input, error, gradient)` (lines 188–208):
all three arguments are unused; split `attentionGradient` by contiguous
offset into the two modules' `Gradient()` buffers, skipping a module whose
parameter count is zero. -/
def RecurrentAttention.Gradient (st : RecurrentAttention) : RecurrentAttention :=
  let offset0 := 0
  let st1 := if st.rnnModule.parameters.nElem ≠ 0 then
      { st with rnnGradient := (st.attentionGradient.submatCol offset0
          st.rnnModule.parameters.nElem) }
    else st
  let offset1 := if st.rnnModule.parameters.nElem ≠ 0 then
      offset0 + st.rnnModule.parameters.nElem
    else offset0
  if st1.actionModule.parameters.nElem ≠ 0 then
    { st1 with actionGradient := (st1.attentionGradient.submatCol offset1
        st1.actionModule.parameters.nElem) }
  else st1

/-! ### Claim C7: Gradient splits by contiguous offset, skipping empty blocks -/

/-- C7: `RecurrentAttention::Gradient` splits the accumulated
`attentionGradient` into the two sub-layers' gradient buffers by contiguous
offset — the recurrent module's block first at offset 0, sized to its
parameter count, then the action module's block — and skips a module's
block entirely when that module has zero parameters (its buffer is left
untouched); `attentionGradient` itself is not modified. -/
theorem recurrent_attention_gradient_split (st : RecurrentAttention) :
    (st.Gradient.rnnGradient =
      if st.rnnModule.parameters.nElem = 0 then st.rnnGradient
      else st.attentionGradient.submatCol 0 st.rnnModule.parameters.nElem) ∧
    (st.Gradient.actionGradient =
      if st.actionModule.parameters.nElem = 0 then st.actionGradient
      else st.attentionGradient.submatCol st.rnnModule.parameters.nElem
        st.actionModule.parameters.nElem) ∧
    st.Gradient.attentionGradient = st.attentionGradient := by
  unfold RecurrentAttention.Gradient
  by_cases h1 : st.rnnModule.parameters.nElem = 0 <;>
    by_cases h2 : st.actionModule.parameters.nElem = 0 <;>
      simp [h1, h2]

/-! ### Claim C10: the initial action input is allocated once -/

/-- C10: `Forward` allocates `initialInput` as zeros of shape
`(outSize, input.n_cols)` exactly when the buffer is empty; a non-empty
buffer is passed through unchanged, whatever the new input's column count.
Consequently, starting from an empty buffer with `outSize ≠ 0` and a
first batch that is non-empty, a second `Forward` with any other input
still sees the first call's buffer. -/
theorem recurrent_attention_initial_input (st : RecurrentAttention)
    (input input2 : Mat) :
    ((st.Forward input).1.initialInput =
      if st.initialInput.isEmpty then Mat.zeros st.outSize input.nCols
      else st.initialInput) ∧
    (st.initialInput.isEmpty = true → st.outSize ≠ 0 → input.nCols ≠ 0 →
      (((st.Forward input).1).Forward input2).1.initialInput =
        Mat.zeros st.outSize input.nCols) := by
  have hstep : ∀ (i : Mat) (s : RecurrentAttention),
      (forwardStepFn i s).initialInput = s.initialInput := fun _ _ => rfl
  have hloop : ∀ (i : Mat) (n : Nat) (s : RecurrentAttention),
      (forwardLoop i n s).initialInput = s.initialInput := by
    intro i n
    induction n with
    | zero => intro s; rfl
    | succ n ih =>
        intro s
        rw [forwardLoop, ih, hstep]
  have hfwd : ∀ (i : Mat) (s : RecurrentAttention),
      (s.Forward i).1.initialInput =
        if s.initialInput.isEmpty then Mat.zeros s.outSize i.nCols
        else s.initialInput := by
    intro i s
    show (forwardLoop i _ _).initialInput = _
    rw [hloop]
    by_cases he : s.initialInput.isEmpty <;> simp [he]
  refine ⟨hfwd input st, ?_⟩
  intro he hos hc
  rw [hfwd input2 ((st.Forward input).1), hfwd input st, if_pos he]
  have hne : (Mat.zeros st.outSize input.nCols).isEmpty = false := by
    simp only [Mat.isEmpty, Mat.zeros]
    simp [Nat.mul_ne_zero hos hc]
  rw [if_neg (by rw [hne]; exact Bool.false_ne_true)]

/-! ### Claim C5: forward wiring of the action and recurrent modules -/

/-- C5: in each forward step, the action module consumes the zero-allocated
initial action input at `t = 0` and the recurrent module's current output at
`t > 0`; the recurrent module consumes the glimpse tensor, whose column 0 is
the raw external input and whose column 1 holds the action output in its
leading element range with the remainder zero. -/
theorem recurrent_attention_forward_wiring (st : RecurrentAttention)
    (input : Mat) :
    ((forwardStepFn input st).actionOutput =
      st.actionModule.forward
        (if st.forwardStep = 0 then st.initialInput else st.rnnOutput)) ∧
    ((forwardStepFn input st).rnnOutput =
      st.rnnModule.forward
        (buildGlimpse input ((forwardStepFn input st).actionOutput))) ∧
    (∀ a : Mat, input.data.length = input.nElem → a.data.length ≤ input.nElem →
      (buildGlimpse input a).nRows = input.nElem ∧
      (buildGlimpse input a).nCols = 2 ∧
      (buildGlimpse input a).data.take input.nElem = input.data ∧
      (buildGlimpse input a).data.drop input.nElem =
        a.data ++ List.replicate (input.nElem - a.data.length) 0) := by
  refine ⟨?_, rfl, ?_⟩
  · by_cases h : st.forwardStep = 0 <;> simp [forwardStepFn, h]
  · intro a hlen ha
    have h1 : List.take 0 (Mat.zeros input.nElem 2).data ++ input.data ++
        List.drop (0 + input.data.length) (Mat.zeros input.nElem 2).data =
        input.data ++ List.replicate input.nElem 0 := by
      simp only [Mat.zeros, List.take_zero, List.nil_append,
        Nat.zero_add, hlen, List.drop_replicate]
      rw [show input.nElem * 2 - input.nElem = input.nElem by omega]
    have h2 : (buildGlimpse input a).data =
        input.data ++ a.data ++ List.replicate (input.nElem - a.data.length) 0 := by
      show (((Mat.zeros input.nElem 2).setRange 0 input.data).setRange
          input.nElem a.data).data = _
      simp only [Mat.setRange]
      rw [h1, List.take_left' hlen,
        show input.nElem + a.data.length = input.data.length + a.data.length by
          rw [hlen],
        List.drop_append, List.drop_replicate]
    refine ⟨rfl, rfl, ?_, ?_⟩
    · rw [h2, List.append_assoc, List.take_left' hlen]
    · rw [h2, List.append_assoc, List.drop_left' hlen]

/-! ### Backward-loop step facts shared by C1, C6 and C4 -/

lemma backwardStepFn_backwardStep (gy : Mat) (p : RecurrentAttention × Mat) :
    (backwardStepFn gy p).1.backwardStep = p.1.backwardStep + 1 := rfl

lemma backwardStepFn_recurrentError (gy : Mat) (p : RecurrentAttention × Mat) :
    (backwardStepFn gy p).1.recurrentError =
      if p.1.backwardStep = 0 then gy else p.1.actionDelta := rfl

lemma backwardStep_iterate (gy : Mat) (k : Nat) (p : RecurrentAttention × Mat) :
    ((backwardStepFn gy)^[k] p).1.backwardStep = p.1.backwardStep + k := by
  induction k with
  | zero => rfl
  | succ k ih =>
      rw [Function.iterate_succ_apply' (backwardStepFn gy) k p,
        backwardStepFn_backwardStep, ih, Nat.add_assoc]

lemma backwardInit_backwardStep (st : RecurrentAttention) :
    (backwardInit st).backwardStep = st.backwardStep := by
  unfold backwardInit
  split <;> (dsimp only; split <;> rfl)

lemma backwardInit_rho (st : RecurrentAttention) :
    (backwardInit st).rho = st.rho := by
  unfold backwardInit
  split <;> (dsimp only; split <;> rfl)

lemma backwardInit_stack (st : RecurrentAttention) :
    (backwardInit st).moduleOutputParameter = st.moduleOutputParameter := by
  unfold backwardInit
  split <;> (dsimp only; split <;> rfl)

/-! ### Claim C1: selection of the recurrent module's upstream error -/

/-- C1: in the reverse (BPTT) loop of `RecurrentAttention::Backward`, the
recurrent module's upstream error equals the externally supplied output
gradient `gy` exactly at the first reverse iteration (`backwardStep == 0`,
the final time step), and at every later reverse iteration it equals the
action delta produced by the reverse iteration processed immediately
before it; in particular, for `rho = 1` the single step's recurrent error
equals `gy` exactly. -/
theorem recurrent_attention_backward_error_selection
    (st : RecurrentAttention) (input gy g0 : Mat) (h0 : st.backwardStep = 0) :
    (((backwardStepFn gy)^[1] (st, g0)).1.recurrentError = gy) ∧
    (∀ k : Nat, ((backwardStepFn gy)^[k + 2] (st, g0)).1.recurrentError =
        ((backwardStepFn gy)^[k + 1] (st, g0)).1.actionDelta) ∧
    (st.rho = 1 → (st.Backward input gy g0).1.recurrentError = gy) := by
  refine ⟨?_, ?_, ?_⟩
  · rw [Function.iterate_one, backwardStepFn_recurrentError]
    show (if st.backwardStep = 0 then gy else st.actionDelta) = gy
    rw [if_pos h0]
  · intro k
    rw [Function.iterate_succ_apply' (backwardStepFn gy) (k + 1) (st, g0),
      backwardStepFn_recurrentError]
    have hbs : ((backwardStepFn gy)^[k + 1] (st, g0)).1.backwardStep = k + 1 := by
      rw [backwardStep_iterate]
      show st.backwardStep + (k + 1) = k + 1
      rw [h0, Nat.zero_add]
    rw [if_neg (by rw [hbs]; exact Nat.succ_ne_zero k)]
  · intro hrho
    show ((backwardStepFn gy)^[(backwardInit st).rho - (backwardInit st).backwardStep]
        (backwardInit st, g0)).1.recurrentError = gy
    rw [backwardInit_rho, backwardInit_backwardStep, h0, hrho, Nat.sub_zero,
      Function.iterate_one, backwardStepFn_recurrentError]
    show (if (backwardInit st).backwardStep = 0 then gy else _) = gy
    rw [if_pos (by rw [backwardInit_backwardStep]; exact h0)]

/-- A trivial sub-layer used for concrete witnesses. -/
def idModule : LayerModule :=
  ⟨fun m => m, fun _ e => e, fun _ e => e, Mat.zeros 0 0⟩

/-- A concrete `RecurrentAttention` state used for witnesses:
`rho = 1`, both cursors 0, non-deterministic, empty snapshot stack. -/
def raSample : RecurrentAttention :=
  { outSize := 1, rho := 1, forwardStep := 0, backwardStep := 0,
    deterministic := false, rnnModule := idModule, actionModule := idModule,
    rnnOutput := Mat.zeros 1 1, actionOutput := Mat.zeros 1 1,
    initialInput := Mat.zeros 1 1, moduleOutputParameter := [],
    intermediateGradient := Mat.zeros 0 0, attentionGradient := Mat.zeros 0 0,
    actionError := Mat.zeros 1 1, actionDelta := Mat.zeros 1 1,
    rnnDelta := Mat.zeros 1 1, recurrentError := Mat.zeros 1 1,
    rnnGradient := Mat.zeros 0 0, actionGradient := Mat.zeros 0 0 }

/-- Witness for C1 at the concrete state `raSample` (`rho = 1`). -/
theorem recurrent_attention_backward_error_selection_witness :
    raSample.backwardStep = 0 ∧
    (((backwardStepFn (Mat.zeros 1 1))^[1] (raSample, Mat.zeros 1 1)).1.recurrentError =
      Mat.zeros 1 1) ∧
    (((backwardStepFn (Mat.zeros 1 1))^[0 + 2] (raSample, Mat.zeros 1 1)).1.recurrentError =
      ((backwardStepFn (Mat.zeros 1 1))^[0 + 1] (raSample, Mat.zeros 1 1)).1.actionDelta) ∧
    ((raSample.Backward (Mat.zeros 1 1) (Mat.zeros 1 1) (Mat.zeros 1 1)).1.recurrentError =
      Mat.zeros 1 1) :=
  ⟨rfl,
   (recurrent_attention_backward_error_selection raSample (Mat.zeros 1 1)
      (Mat.zeros 1 1) (Mat.zeros 1 1) rfl).1,
   (recurrent_attention_backward_error_selection raSample (Mat.zeros 1 1)
      (Mat.zeros 1 1) (Mat.zeros 1 1) rfl).2.1 0,
   (recurrent_attention_backward_error_selection raSample (Mat.zeros 1 1)
      (Mat.zeros 1 1) (Mat.zeros 1 1) rfl).2.2 rfl⟩

/-! ### Claim C6: the external input-gradient accumulates column 1 of rnnDelta -/

lemma backwardStepFn_g (gy : Mat) (p : RecurrentAttention × Mat) :
    (backwardStepFn gy p).2 =
      if p.1.backwardStep = 0 then ((backwardStepFn gy p).1.rnnDelta).col 1
      else p.2.add (((backwardStepFn gy p).1.rnnDelta).col 1) := by
  by_cases h : p.1.backwardStep = 0 <;>
    simp [backwardStepFn, intermediateGradientFn, h]

/-- `g` as the claim describes it: the first reverse step assigns column 1
of that step's `rnnDelta`, every later step adds its own column 1. -/
def gRunningSum (d : Nat → Mat) : Nat → Mat
  | 0 => (d 0).col 1
  | k + 1 => (gRunningSum d k).add ((d (k + 1)).col 1)

/-- C6: the external input-gradient `g` returned by
`RecurrentAttention::Backward` equals the running sum over all reverse
steps of column 1 of the recurrent module's per-step input-gradient
(`rnnDelta`): the first reverse step assigns it, every subsequent reverse
step adds to it. -/
theorem recurrent_attention_backward_g_accumulation
    (st : RecurrentAttention) (input gy g0 : Mat) (n : Nat)
    (h0 : st.backwardStep = 0) (hrho : st.rho = n + 1) :
    (st.Backward input gy g0).2 =
      gRunningSum (fun k =>
        ((backwardStepFn gy)^[k + 1] (backwardInit st, g0)).1.rnnDelta) n := by
  have key : ∀ (kk : Nat) (p : RecurrentAttention × Mat), p.1.backwardStep = 0 →
      ((backwardStepFn gy)^[kk + 1] p).2 =
        gRunningSum (fun k => ((backwardStepFn gy)^[k + 1] p).1.rnnDelta) kk := by
    intro kk
    induction kk with
    | zero =>
        intro p hp
        rw [Function.iterate_one, backwardStepFn_g, if_pos hp]
        rfl
    | succ kk ih =>
        intro p hp
        rw [Function.iterate_succ_apply' (backwardStepFn gy) (kk + 1) p,
          backwardStepFn_g]
        have hbs : ((backwardStepFn gy)^[kk + 1] p).1.backwardStep = kk + 1 := by
          rw [backwardStep_iterate, hp, Nat.zero_add]
        rw [if_neg (by rw [hbs]; exact Nat.succ_ne_zero kk), ih p hp]
        show _ = (gRunningSum _ kk).add
          ((((backwardStepFn gy)^[kk + 1 + 1] p).1.rnnDelta).col 1)
        rw [Function.iterate_succ_apply' (backwardStepFn gy) (kk + 1) p]
  show ((backwardStepFn gy)^[(backwardInit st).rho - (backwardInit st).backwardStep]
      (backwardInit st, g0)).2 = _
  rw [backwardInit_rho, backwardInit_backwardStep, h0, hrho, Nat.sub_zero]
  exact key n (backwardInit st, g0) (by rw [backwardInit_backwardStep]; exact h0)

/-- Witness for C6 at the concrete state `raSample` (`rho = 1`). -/
theorem recurrent_attention_backward_g_accumulation_witness :
    raSample.backwardStep = 0 ∧ raSample.rho = 0 + 1 ∧
    (raSample.Backward (Mat.zeros 1 1) (Mat.zeros 1 1) (Mat.zeros 1 1)).2 =
      gRunningSum (fun k =>
        ((backwardStepFn (Mat.zeros 1 1))^[k + 1]
          (backwardInit raSample, Mat.zeros 1 1)).1.rnnDelta) 0 :=
  ⟨rfl, rfl,
   recurrent_attention_backward_g_accumulation raSample (Mat.zeros 1 1)
     (Mat.zeros 1 1) (Mat.zeros 1 1) 0 rfl rfl⟩

/-! ### Claim C4: snapshot stack balance and reverse-order restoration -/

/-- The flat snapshot stack produced by pushing each step's
`(rnnOutput, actionOutput)` pair in order (rnn module first, then action
module, as the `network` loop does). -/
def flattenPairs : List (Mat × Mat) → List Mat
  | [] => []
  | p :: l => p.1 :: p.2 :: flattenPairs l

/-- The per-step `(rnnOutput, actionOutput)` pairs of the forward unroll
loop, in push order. -/
def forwardPairs (input : Mat) : Nat → RecurrentAttention → List (Mat × Mat)
  | 0, _ => []
  | n + 1, st =>
      ((forwardStepFn input st).rnnOutput, (forwardStepFn input st).actionOutput) ::
        forwardPairs input n (forwardStepFn input st)

/-- The pairs pushed by `st.Forward input`, starting from `Forward`'s own
loop entry state. -/
def forwardTrace (st : RecurrentAttention) (input : Mat) : List (Mat × Mat) :=
  forwardPairs input st.rho
    { (if st.initialInput.isEmpty
        then { st with initialInput := Mat.zeros st.outSize input.nCols }
        else st) with forwardStep := 0 }

lemma flattenPairs_length (l : List (Mat × Mat)) :
    (flattenPairs l).length = 2 * l.length := by
  induction l with
  | nil => rfl
  | cons p l ih =>
      simp only [flattenPairs, List.length_cons, ih]
      omega

lemma flattenPairs_concat (l : List (Mat × Mat)) (p : Mat × Mat) :
    flattenPairs (l ++ [p]) = flattenPairs l ++ [p.1, p.2] := by
  induction l with
  | nil => rfl
  | cons q l ih =>
      show q.1 :: q.2 :: flattenPairs (l ++ [p]) =
        q.1 :: q.2 :: (flattenPairs l ++ [p.1, p.2])
      rw [ih]

lemma forwardPairs_length (input : Mat) (n : Nat) :
    ∀ st : RecurrentAttention, (forwardPairs input n st).length = n := by
  induction n with
  | zero => intro st; rfl
  | succ n ih =>
      intro st
      show (forwardPairs input n (forwardStepFn input st)).length + 1 = n + 1
      rw [ih]

lemma forwardStepFn_deterministic (input : Mat) (st : RecurrentAttention) :
    (forwardStepFn input st).deterministic = st.deterministic := rfl

lemma forwardStepFn_rho (input : Mat) (st : RecurrentAttention) :
    (forwardStepFn input st).rho = st.rho := rfl

lemma forwardStepFn_stack (input : Mat) (st : RecurrentAttention)
    (hdet : st.deterministic = false) :
    (forwardStepFn input st).moduleOutputParameter =
      st.moduleOutputParameter ++
        [(forwardStepFn input st).rnnOutput, (forwardStepFn input st).actionOutput] := by
  simp [forwardStepFn, hdet]

lemma forwardLoop_deterministic (input : Mat) (n : Nat) :
    ∀ st : RecurrentAttention,
      (forwardLoop input n st).deterministic = st.deterministic := by
  induction n with
  | zero => intro st; rfl
  | succ n ih =>
      intro st
      show (forwardLoop input n (forwardStepFn input st)).deterministic = _
      rw [ih, forwardStepFn_deterministic]

lemma forwardLoop_rho (input : Mat) (n : Nat) :
    ∀ st : RecurrentAttention, (forwardLoop input n st).rho = st.rho := by
  induction n with
  | zero => intro st; rfl
  | succ n ih =>
      intro st
      show (forwardLoop input n (forwardStepFn input st)).rho = _
      rw [ih, forwardStepFn_rho]

lemma forwardLoop_stack (input : Mat) (n : Nat) :
    ∀ st : RecurrentAttention, st.deterministic = false →
      (forwardLoop input n st).moduleOutputParameter =
        st.moduleOutputParameter ++ flattenPairs (forwardPairs input n st) := by
  induction n with
  | zero =>
      intro st _
      show st.moduleOutputParameter = st.moduleOutputParameter ++ flattenPairs []
      simp [flattenPairs]
  | succ n ih =>
      intro st hdet
      show (forwardLoop input n (forwardStepFn input st)).moduleOutputParameter = _
      rw [ih _ (by rw [forwardStepFn_deterministic]; exact hdet),
        forwardStepFn_stack input st hdet, List.append_assoc]
      rfl

lemma backwardStepFn_stack (gy : Mat) (p : RecurrentAttention × Mat) :
    (backwardStepFn gy p).1.moduleOutputParameter =
      p.1.moduleOutputParameter.dropLast.dropLast := rfl

lemma backwardStepFn_rnnOutput (gy : Mat) (p : RecurrentAttention × Mat) :
    (backwardStepFn gy p).1.rnnOutput =
      p.1.moduleOutputParameter.dropLast.getLastD (Mat.zeros 0 0) := rfl

lemma backwardStepFn_actionOutput (gy : Mat) (p : RecurrentAttention × Mat) :
    (backwardStepFn gy p).1.actionOutput =
      p.1.moduleOutputParameter.getLastD (Mat.zeros 0 0) := rfl

lemma take_succ_getD (l : List (Mat × Mat)) (m : Nat) (hm : m < l.length)
    (d : Mat × Mat) :
    l.take (m + 1) = l.take m ++ [l.getD m d] := by
  rw [List.take_succ, List.getElem?_eq_getElem hm]
  simp [List.getD, List.getElem?_eq_getElem hm]

lemma backward_restore (gy : Mat) (p : RecurrentAttention × Mat)
    (l : List (Mat × Mat)) (q : Mat × Mat)
    (hst : p.1.moduleOutputParameter = flattenPairs (l ++ [q])) :
    (backwardStepFn gy p).1.moduleOutputParameter = flattenPairs l ∧
    (backwardStepFn gy p).1.rnnOutput = q.1 ∧
    (backwardStepFn gy p).1.actionOutput = q.2 := by
  have hform : flattenPairs (l ++ [q]) = (flattenPairs l ++ [q.1]) ++ [q.2] := by
    rw [flattenPairs_concat, List.append_assoc]
    rfl
  refine ⟨?_, ?_, ?_⟩
  · rw [backwardStepFn_stack, hst, hform, List.dropLast_concat, List.dropLast_concat]
  · rw [backwardStepFn_rnnOutput, hst, hform, List.dropLast_concat,
      List.getLastD_concat]
  · rw [backwardStepFn_actionOutput, hst, hform, List.getLastD_concat]

lemma backward_stack_take (gy : Mat) (pairs : List (Mat × Mat)) :
    ∀ (k : Nat) (p : RecurrentAttention × Mat), k ≤ pairs.length →
      p.1.moduleOutputParameter = flattenPairs pairs →
      ((backwardStepFn gy)^[k] p).1.moduleOutputParameter =
        flattenPairs (pairs.take (pairs.length - k)) := by
  intro k
  induction k with
  | zero =>
      intro p _ hp
      rw [Function.iterate_zero_apply, Nat.sub_zero, List.take_length]
      exact hp
  | succ k ih =>
      intro p hk hp
      rw [Function.iterate_succ_apply' (backwardStepFn gy) k p]
      have hlt : pairs.length - 1 - k < pairs.length := by omega
      have hsplit : pairs.take (pairs.length - k) =
          pairs.take (pairs.length - 1 - k) ++
            [pairs.getD (pairs.length - 1 - k) (Mat.zeros 0 0, Mat.zeros 0 0)] := by
        rw [show pairs.length - k = (pairs.length - 1 - k) + 1 by omega]
        exact take_succ_getD pairs _ hlt _
      have hrest := backward_restore gy ((backwardStepFn gy)^[k] p)
        (pairs.take (pairs.length - 1 - k))
        (pairs.getD (pairs.length - 1 - k) (Mat.zeros 0 0, Mat.zeros 0 0))
        (by rw [ih p (by omega) hp, hsplit])
      rw [hrest.1, show pairs.length - (k + 1) = pairs.length - 1 - k from by omega]

lemma backward_restore_at (gy : Mat) (pairs : List (Mat × Mat)) (k : Nat)
    (p : RecurrentAttention × Mat) (hk : k < pairs.length)
    (hp : p.1.moduleOutputParameter = flattenPairs pairs) :
    ((backwardStepFn gy)^[k + 1] p).1.rnnOutput =
      (pairs.getD (pairs.length - 1 - k) (Mat.zeros 0 0, Mat.zeros 0 0)).1 ∧
    ((backwardStepFn gy)^[k + 1] p).1.actionOutput =
      (pairs.getD (pairs.length - 1 - k) (Mat.zeros 0 0, Mat.zeros 0 0)).2 := by
  rw [Function.iterate_succ_apply' (backwardStepFn gy) k p]
  have hlt : pairs.length - 1 - k < pairs.length := by omega
  have hsplit : pairs.take (pairs.length - k) =
      pairs.take (pairs.length - 1 - k) ++
        [pairs.getD (pairs.length - 1 - k) (Mat.zeros 0 0, Mat.zeros 0 0)] := by
    rw [show pairs.length - k = (pairs.length - 1 - k) + 1 by omega]
    exact take_succ_getD pairs _ hlt _
  have hrest := backward_restore gy ((backwardStepFn gy)^[k] p)
    (pairs.take (pairs.length - 1 - k))
    (pairs.getD (pairs.length - 1 - k) (Mat.zeros 0 0, Mat.zeros 0 0))
    (by rw [backward_stack_take gy pairs k p (by omega) hp, hsplit])
  exact ⟨hrest.2.1, hrest.2.2⟩

lemma forward_rho (st : RecurrentAttention) (input : Mat) :
    (st.Forward input).1.rho = st.rho := by
  show (forwardLoop input _ _).rho = st.rho
  rw [forwardLoop_rho]
  by_cases he : st.initialInput.isEmpty <;> simp [he]

lemma forward_backwardStep (st : RecurrentAttention) (input : Mat) :
    (st.Forward input).1.backwardStep = 0 := rfl

lemma forward_stack (st : RecurrentAttention) (input : Mat)
    (hdet : st.deterministic = false) (hstack : st.moduleOutputParameter = []) :
    (st.Forward input).1.moduleOutputParameter =
      flattenPairs (forwardTrace st input) := by
  have hdet' : ({ (if st.initialInput.isEmpty
      then { st with initialInput := Mat.zeros st.outSize input.nCols }
      else st) with forwardStep := 0 } : RecurrentAttention).deterministic = false := by
    by_cases he : st.initialInput.isEmpty <;> simp [he, hdet]
  have hstack' : ({ (if st.initialInput.isEmpty
      then { st with initialInput := Mat.zeros st.outSize input.nCols }
      else st) with forwardStep := 0 } : RecurrentAttention).moduleOutputParameter
        = [] := by
    by_cases he : st.initialInput.isEmpty <;> simp [he, hstack]
  have hrho' : ({ (if st.initialInput.isEmpty
      then { st with initialInput := Mat.zeros st.outSize input.nCols }
      else st) with forwardStep := 0 } : RecurrentAttention).rho = st.rho := by
    by_cases he : st.initialInput.isEmpty <;> simp [he]
  show (forwardLoop input
      (if st.initialInput.isEmpty
        then { st with initialInput := Mat.zeros st.outSize input.nCols }
        else st).rho
      { (if st.initialInput.isEmpty
          then { st with initialInput := Mat.zeros st.outSize input.nCols }
          else st) with forwardStep := 0 }).moduleOutputParameter = _
  rw [show (if st.initialInput.isEmpty
      then { st with initialInput := Mat.zeros st.outSize input.nCols }
      else st).rho = st.rho from hrho', forwardLoop_stack input st.rho _ hdet',
    hstack', List.nil_append]
  rfl

/-- C4: in non-deterministic mode, `Forward` pushes exactly `rho` snapshot
pairs (one per step, the recurrent module's output then the action
module's), `Backward` pops them in reverse of push order — the pair
restored at reverse step `k` is the pair pushed at forward step
`rho - 1 - k`, becoming the sub-layers' current outputs — and after
`Backward` the snapshot stack is empty. -/
theorem recurrent_attention_snapshot_balance
    (st : RecurrentAttention) (input gy g0 : Mat)
    (hdet : st.deterministic = false) (hstack : st.moduleOutputParameter = []) :
    (forwardTrace st input).length = st.rho ∧
    (st.Forward input).1.moduleOutputParameter =
      flattenPairs (forwardTrace st input) ∧
    (st.Forward input).1.moduleOutputParameter.length = 2 * st.rho ∧
    (∀ k, k < st.rho →
      ((backwardStepFn gy)^[k + 1]
          (backwardInit (st.Forward input).1, g0)).1.rnnOutput =
        ((forwardTrace st input).getD (st.rho - 1 - k)
          (Mat.zeros 0 0, Mat.zeros 0 0)).1 ∧
      ((backwardStepFn gy)^[k + 1]
          (backwardInit (st.Forward input).1, g0)).1.actionOutput =
        ((forwardTrace st input).getD (st.rho - 1 - k)
          (Mat.zeros 0 0, Mat.zeros 0 0)).2) ∧
    ((st.Forward input).1.Backward input gy g0).1.moduleOutputParameter = [] := by
  have hlen : (forwardTrace st input).length = st.rho := by
    show (forwardPairs input st.rho _).length = st.rho
    rw [forwardPairs_length]
  have hfs := forward_stack st input hdet hstack
  have hp : (backwardInit (st.Forward input).1, g0).1.moduleOutputParameter =
      flattenPairs (forwardTrace st input) := by
    show (backwardInit (st.Forward input).1).moduleOutputParameter = _
    rw [backwardInit_stack]
    exact hfs
  refine ⟨hlen, hfs, ?_, ?_, ?_⟩
  · rw [hfs, flattenPairs_length, hlen]
  · intro k hk
    have hres := backward_restore_at gy (forwardTrace st input) k
      (backwardInit (st.Forward input).1, g0) (by rw [hlen]; exact hk) hp
    rw [hlen] at hres
    exact hres
  · show ((backwardStepFn gy)^[(backwardInit (st.Forward input).1).rho -
        (backwardInit (st.Forward input).1).backwardStep]
        (backwardInit (st.Forward input).1, g0)).1.moduleOutputParameter = []
    rw [backwardInit_rho, backwardInit_backwardStep, forward_rho,
      forward_backwardStep, Nat.sub_zero,
      backward_stack_take gy (forwardTrace st input) st.rho
        (backwardInit (st.Forward input).1, g0) (by rw [hlen]) hp,
      hlen, Nat.sub_self, List.take_zero]
    rfl

/-- Witness for C4 at the concrete state `raSample` (`rho = 1`, empty
snapshot stack, non-deterministic mode). -/
theorem recurrent_attention_snapshot_balance_witness :
    (forwardTrace raSample (Mat.zeros 1 1)).length = raSample.rho ∧
    (raSample.Forward (Mat.zeros 1 1)).1.moduleOutputParameter =
      flattenPairs (forwardTrace raSample (Mat.zeros 1 1)) ∧
    (raSample.Forward (Mat.zeros 1 1)).1.moduleOutputParameter.length =
      2 * raSample.rho ∧
    (((backwardStepFn (Mat.zeros 1 1))^[0 + 1]
        (backwardInit (raSample.Forward (Mat.zeros 1 1)).1, Mat.zeros 1 1)).1.rnnOutput =
      ((forwardTrace raSample (Mat.zeros 1 1)).getD (raSample.rho - 1 - 0)
        (Mat.zeros 0 0, Mat.zeros 0 0)).1 ∧
     ((backwardStepFn (Mat.zeros 1 1))^[0 + 1]
        (backwardInit (raSample.Forward (Mat.zeros 1 1)).1, Mat.zeros 1 1)).1.actionOutput =
      ((forwardTrace raSample (Mat.zeros 1 1)).getD (raSample.rho - 1 - 0)
        (Mat.zeros 0 0, Mat.zeros 0 0)).2) ∧
    ((raSample.Forward (Mat.zeros 1 1)).1.Backward (Mat.zeros 1 1) (Mat.zeros 1 1)
        (Mat.zeros 1 1)).1.moduleOutputParameter = [] := by
  have h := recurrent_attention_snapshot_balance raSample (Mat.zeros 1 1)
    (Mat.zeros 1 1) (Mat.zeros 1 1) rfl rfl
  exact ⟨h.1, h.2.1, h.2.2.1, h.2.2.2.1 0 (by decide), h.2.2.2.2⟩

/-- A concrete state with an empty `initialInput`, as before any Forward
call. -/
def raSampleEmptyInit : RecurrentAttention :=
  { raSample with initialInput := Mat.zeros 0 0 }

/-- Witness for C10: the buffer is allocated on the first call and reused
by a second call with a different batch size. -/
theorem recurrent_attention_initial_input_witness :
    ((raSampleEmptyInit.Forward (Mat.zeros 1 1)).1.initialInput =
      if raSampleEmptyInit.initialInput.isEmpty
      then Mat.zeros raSampleEmptyInit.outSize (Mat.zeros 1 1).nCols
      else raSampleEmptyInit.initialInput) ∧
    (((raSampleEmptyInit.Forward (Mat.zeros 1 1)).1).Forward
        (Mat.zeros 1 2)).1.initialInput =
      Mat.zeros raSampleEmptyInit.outSize (Mat.zeros 1 1).nCols :=
  ⟨(recurrent_attention_initial_input raSampleEmptyInit (Mat.zeros 1 1)
      (Mat.zeros 1 2)).1,
   (recurrent_attention_initial_input raSampleEmptyInit (Mat.zeros 1 1)
      (Mat.zeros 1 2)).2 rfl (by decide) (by decide)⟩

/-- Witness for C5 at a concrete step with a 1-element input. -/
theorem recurrent_attention_forward_wiring_witness :
    ((forwardStepFn (Mat.zeros 1 1) raSample).actionOutput =
      raSample.actionModule.forward
        (if raSample.forwardStep = 0 then raSample.initialInput
         else raSample.rnnOutput)) ∧
    ((forwardStepFn (Mat.zeros 1 1) raSample).rnnOutput =
      raSample.rnnModule.forward
        (buildGlimpse (Mat.zeros 1 1)
          ((forwardStepFn (Mat.zeros 1 1) raSample).actionOutput))) ∧
    ((buildGlimpse (Mat.zeros 1 1) (Mat.zeros 1 1)).nRows = (Mat.zeros 1 1).nElem ∧
     (buildGlimpse (Mat.zeros 1 1) (Mat.zeros 1 1)).nCols = 2 ∧
     (buildGlimpse (Mat.zeros 1 1) (Mat.zeros 1 1)).data.take (Mat.zeros 1 1).nElem =
       (Mat.zeros 1 1).data ∧
     (buildGlimpse (Mat.zeros 1 1) (Mat.zeros 1 1)).data.drop (Mat.zeros 1 1).nElem =
       (Mat.zeros 1 1).data ++
         List.replicate ((Mat.zeros 1 1).nElem - (Mat.zeros 1 1).data.length) 0) :=
  ⟨(recurrent_attention_forward_wiring raSample (Mat.zeros 1 1)).1,
   (recurrent_attention_forward_wiring raSample (Mat.zeros 1 1)).2.1,
   (recurrent_attention_forward_wiring raSample (Mat.zeros 1 1)).2.2
     (Mat.zeros 1 1) (by decide) (by decide)⟩
